import Mathlib

/-!
Verification of the doctool document-conversion orchestration core.

The Python source (src/doctool.py, src/docconvert/core/converter.py,
src/docconvert/job/job_parser.py, src/docconvert/converters/pdf_combiner.py)
is embedded shallowly:

* YAML/JSON job descriptions are Python dicts; they are embedded as the
  dynamic value type `JVal` (ordered association lists for dicts, which is
  how Python preserves insertion order). `none : Option JVal` stands for
  Python `None` (an empty YAML file parses to `None`).
* The filesystem is a `FileSystem` value: a finite map from directory
  paths to their entry-name listings, in OS listing order.  `glob.glob`
  returns matches in that listing order (Python documents the order as
  arbitrary), and `os.path.exists` holds exactly for joined dir/name paths.
* Fallible Python code (raised exceptions) is embedded as
  `Except String α`; exception types other than the ValueError messages
  the code raises explicitly (KeyError, TypeError, AttributeError from
  duck typing) are embedded as errors with a describing message, since
  every claim only depends on which ValueError messages are produced and
  on the success values.
* `print`-based warnings that the claims mention are returned alongside
  the result as a list of warning strings; other prints are dropped.
-/

namespace Doctool

/-- Dynamic YAML/JSON-like value, mirroring the Python dict/list/str/bool
values a parsed job description is made of.  Dicts are association lists
in insertion order (Python dicts preserve insertion order; keys are
unique by construction in all values this development builds). -/
inductive JVal where
  | str : String → JVal
  | bool : Bool → JVal
  | list : List JVal → JVal
  | dict : List (String × JVal) → JVal

/-- Python truthiness of a value (`if value:`): empty strings, `False`,
empty lists and empty dicts are falsy. -/
def JVal.truthy : JVal → Bool
  | .str s => !s.isEmpty
  | .bool b => b
  | .list l => !l.isEmpty
  | .dict d => !d.isEmpty

/-- Truthiness of an optional value: Python `None` is falsy. -/
def optTruthy : Option JVal → Bool
  | none => false
  | some v => v.truthy

/-- Python `str.lower()` (the format strings this program lowercases are
ASCII).  Defined over the character list so it reduces in the kernel,
unlike `String.toLower`. -/
def strLower (s : String) : String := ⟨s.data.map Char.toLower⟩

/-- `os.path.join(d, n)` for the simple relative names this code joins. -/
def joinPath (d n : String) : String := d ++ "/" ++ n

/-- The filesystem as seen by the program: a finite map from directory
path to the directory's entry names, in OS listing order. -/
structure FileSystem where
  dirs : List (String × List String)

/-- `os.listdir`-style view: the entries of a directory, in listing
order; `none` when the directory does not exist. -/
def FileSystem.dirEntries (fs : FileSystem) (d : String) : Option (List String) :=
  fs.dirs.lookup d

/-- `os.path.exists` on a directory path. -/
def FileSystem.dirExists (fs : FileSystem) (d : String) : Bool :=
  (fs.dirEntries d).isSome

/-- `os.path.exists` on a file path: the path is some directory's entry,
joined. -/
def FileSystem.fileExists (fs : FileSystem) (p : String) : Bool :=
  fs.dirs.any (fun dn => dn.2.any (fun n => joinPath dn.1 n == p))

/-- Match of one of the glob patterns this program uses (all are literal
`*` followed by an extension suffix, e.g. `*.md`, `*.pdf`): a `*`-pattern
matches every non-hidden name ending in the suffix (glob does not match
leading-dot names), any other pattern only itself. -/
def globMatch (pattern name : String) : Bool :=
  match pattern.data with
  | '*' :: suf => !(List.isPrefixOf ['.'] name.data) && List.isSuffixOf suf name.data
  | _ => pattern == name

/-- `glob.glob(os.path.join(dir, pattern))`: the matching entries of
`dir` joined to full paths, in the directory's listing order (glob's
documented order is arbitrary — it performs no sorting).  A missing
directory yields `[]`. -/
def glob (fs : FileSystem) (dir pattern : String) : List String :=
  match fs.dirEntries dir with
  | none => []
  | some es => (es.filter (globMatch pattern)).map (joinPath dir)

/-! ## Path resolver (`ConversionManager._determine_conversion_path`) -/

/-- The fixed `direct_paths` table of `_determine_conversion_path`,
key-for-key and value-for-value from the source. -/
def direct_paths_table : List ((String × String) × List String) :=
  [ (("markdown", "html"), ["markdown", "html"]),
    (("markdown", "pdf"), ["markdown", "html", "pdf"]),
    (("markdown", "odt"), ["markdown", "odt"]),
    (("html", "markdown"), ["html", "markdown"]),
    (("html", "pdf"), ["html", "pdf"]),
    (("html", "odt"), ["html", "odt"]),
    (("pdf", "html"), ["pdf", "html"]),
    (("pdf", "markdown"), ["pdf", "html", "markdown"]),
    (("pdf", "odt"), ["pdf", "odt"]),
    (("odt", "html"), ["odt", "html"]),
    (("odt", "markdown"), ["odt", "html", "markdown"]),
    (("odt", "pdf"), ["odt", "pdf"]) ]

/-- `direct_paths.get(key)` — dict lookup in the fixed table. -/
def direct_paths (key : String × String) : Option (List String) :=
  direct_paths_table.lookup key

/-- `ConversionManager._determine_conversion_path`: look the pair up in
the fixed table; a missing pair (the dict `.get` returns `None`, which is
falsy, as is an empty path) raises `ValueError` naming both formats. -/
def determine_conversion_path (input_format output_format : String) :
    Except String (List String) :=
  match direct_paths (input_format, output_format) with
  | none =>
      .error ("No conversion path available from " ++ input_format ++
        " to " ++ output_format)
  | some [] =>
      .error ("No conversion path available from " ++ input_format ++
        " to " ++ output_format)
  | some path => .ok path

/-- The keys of the fixed path table. -/
def path_table_keys : List (String × String) :=
  direct_paths_table.map Prod.fst

theorem lookup_eq_none_of_not_mem_keys {β : Type}
    (l : List ((String × String) × β)) (k : String × String)
    (h : k ∉ l.map Prod.fst) : l.lookup k = none := by
  induction l with
  | nil => rfl
  | cons a t ih =>
      simp only [List.map_cons, List.mem_cons] at h
      push_neg at h
      have hne : (k == a.1) = false := by
        simp [beq_eq_false_iff_ne, h.1]
      simp [List.lookup, hne, ih h.2]

/-- C1: the resolver returns exactly the twelve documented routes, and
fails, naming both formats, on every pair outside the table. -/
theorem determine_conversion_path_spec :
    (determine_conversion_path "markdown" "html" = .ok ["markdown", "html"]) ∧
    (determine_conversion_path "markdown" "pdf" = .ok ["markdown", "html", "pdf"]) ∧
    (determine_conversion_path "markdown" "odt" = .ok ["markdown", "odt"]) ∧
    (determine_conversion_path "html" "markdown" = .ok ["html", "markdown"]) ∧
    (determine_conversion_path "html" "pdf" = .ok ["html", "pdf"]) ∧
    (determine_conversion_path "html" "odt" = .ok ["html", "odt"]) ∧
    (determine_conversion_path "pdf" "html" = .ok ["pdf", "html"]) ∧
    (determine_conversion_path "pdf" "markdown" = .ok ["pdf", "html", "markdown"]) ∧
    (determine_conversion_path "pdf" "odt" = .ok ["pdf", "odt"]) ∧
    (determine_conversion_path "odt" "html" = .ok ["odt", "html"]) ∧
    (determine_conversion_path "odt" "markdown" = .ok ["odt", "html", "markdown"]) ∧
    (determine_conversion_path "odt" "pdf" = .ok ["odt", "pdf"]) ∧
    (∀ src dst : String, (src, dst) ∉ path_table_keys →
      determine_conversion_path src dst =
        .error ("No conversion path available from " ++ src ++ " to " ++ dst)) := by
  refine ⟨rfl, rfl, rfl, rfl, rfl, rfl, rfl, rfl, rfl, rfl, rfl, rfl, ?_⟩
  intro src dst h
  have hnone : direct_paths (src, dst) = none :=
    lookup_eq_none_of_not_mem_keys direct_paths_table (src, dst) h
  simp [determine_conversion_path, hnone]

/-- Witness for C1: a concrete same-format pair is outside the table and
fails with the error naming both formats. -/
theorem determine_conversion_path_spec_witness :
    determine_conversion_path "pdf" "pdf" =
      .error "No conversion path available from pdf to pdf" :=
  determine_conversion_path_spec.2.2.2.2.2.2.2.2.2.2.2.2 "pdf" "pdf" (by decide)

/-! ## Job validator (`JobParser._validate_job_data` and helpers)

The per-section validators each take the whole job dict, as the Python
methods read `self.job_data[...]`.  File-existence checks inside
validation (`options.css`, `options.cover_page`, `documents[i].file`)
only `print` warnings and never fail, so they do not contribute to the
`Except` result and are dropped from the embedding. -/

def valid_formats : List String := ["markdown", "md", "html", "pdf", "odt"]

def valid_image_formats : List String := ["jpg", "jpeg", "png", "webp", "svg"]

/-- The field checks of `JobParser._validate_input_section` on the
`input` dict. -/
def validate_input_fields (input_data : List (String × JVal)) : Except String Unit :=
  if (input_data.lookup "format").isNone then
    .error "Missing required field: input.format"
  else if (input_data.lookup "directory").isNone &&
      (input_data.lookup "files").isNone then
    .error "Either input.directory or input.files must be specified"
  else
    match input_data.lookup "format" with
    | some (.str f) =>
        if valid_formats.contains (strLower f) then .ok ()
        else
          .error ("Invalid input format: " ++ f ++ ". Must be one of: " ++
            String.intercalate ", " valid_formats)
    | _ => .error "AttributeError: input.format has no attribute lower"

/-- `JobParser._validate_input_section`. -/
def validate_input_section (d : List (String × JVal)) : Except String Unit :=
  match d.lookup "input" with
  | some (.dict input_data) => validate_input_fields input_data
  | some _ => .error "TypeError: input section is not a mapping"
  | none => .error "KeyError: input"

/-- The field checks of `JobParser._validate_output_section` on the
`output` dict. -/
def validate_output_fields (output_data : List (String × JVal)) : Except String Unit :=
  if (output_data.lookup "format").isNone then
    .error "Missing required field: output.format"
  else if (output_data.lookup "directory").isNone &&
      (output_data.lookup "file").isNone then
    .error "Either output.directory or output.file must be specified"
  else
    match output_data.lookup "format" with
    | some (.str f) =>
        if valid_formats.contains (strLower f) then .ok ()
        else
          .error ("Invalid output format: " ++ f ++ ". Must be one of: " ++
            String.intercalate ", " valid_formats)
    | _ => .error "AttributeError: output.format has no attribute lower"

/-- `JobParser._validate_output_section`. -/
def validate_output_section (d : List (String × JVal)) : Except String Unit :=
  match d.lookup "output" with
  | some (.dict output_data) => validate_output_fields output_data
  | some _ => .error "TypeError: output section is not a mapping"
  | none => .error "KeyError: output"

/-- The per-entry loop of `JobParser._validate_images_section` over
`options.images.formats`. -/
def validate_image_format_list : List JVal → Except String Unit
  | [] => .ok ()
  | .str f :: rest =>
      if valid_image_formats.contains (strLower f) then
        validate_image_format_list rest
      else
        .error ("Invalid image format: " ++ f ++ ". Must be one of: " ++
          String.intercalate ", " valid_image_formats)
  | _ :: _ => .error "AttributeError: image format has no attribute lower"

/-- `JobParser._validate_images_section`. -/
def validate_images_section (images_data : JVal) : Except String Unit :=
  match images_data with
  | .dict idata =>
      (match idata.lookup "embed" with
       | some (.bool _) => .ok ()
       | some _ => .error "options.images.embed must be a boolean"
       | none => .ok ()) >>= fun _ =>
      (match idata.lookup "formats" with
       | some (.list fmts) => validate_image_format_list fmts
       | some _ => .error "options.images.formats must be a list"
       | none => .ok ())
  | _ => .error "TypeError: options.images is not a mapping"

/-- The field checks of `JobParser._validate_options_section` on the
`options` dict (the css / cover_page existence checks are warnings
only). -/
def validate_options_fields (options_data : List (String × JVal)) : Except String Unit :=
  match options_data.lookup "images" with
  | some images_data => validate_images_section images_data
  | none => .ok ()

/-- `JobParser._validate_options_section`. -/
def validate_options_section (d : List (String × JVal)) : Except String Unit :=
  match d.lookup "options" with
  | some (.dict options_data) => validate_options_fields options_data
  | some _ => .error "TypeError: options section is not a mapping"
  | none => .ok ()

/-- The indexed loop of `JobParser._validate_documents_section` (the
per-document file-existence check is a warning only). -/
def validate_documents_list : Nat → List JVal → Except String Unit
  | _, [] => .ok ()
  | i, .dict dd :: rest =>
      if (dd.lookup "file").isNone then
        .error ("Missing required field: documents[" ++ toString i ++ "].file")
      else validate_documents_list (i + 1) rest
  | i, _ :: _ => .error ("Document at index " ++ toString i ++ " must be an object")

/-- `JobParser._validate_documents_section`. -/
def validate_documents_section (d : List (String × JVal)) : Except String Unit :=
  match d.lookup "documents" with
  | some (.list docs) => validate_documents_list 0 docs
  | some _ => .error "documents section must be a list"
  | none => .ok ()

/-- `JobParser._validate_combine_section`. -/
def validate_combine_section (d : List (String × JVal)) : Except String Unit :=
  match d.lookup "combine" with
  | some (.dict combine_data) =>
      match combine_data.lookup "enabled" with
      | none => .error "Missing required field: combine.enabled"
      | some (.bool b) =>
          if b && (combine_data.lookup "output_file").isNone then
            .error "Missing required field: combine.output_file when combine.enabled is true"
          else .ok ()
      | some _ => .error "combine.enabled must be a boolean"
  | some _ => .error "combine section must be an object"
  | none => .ok ()

/-- `JobParser._validate_job_data`: the empty check, the two
required-section presence checks, then the per-section validators, in
source order. -/
def validate_job_data (job_data : Option JVal) : Except String Unit :=
  match job_data with
  | none => .error "Job data is empty"
  | some v =>
      if !v.truthy then .error "Job data is empty"
      else
        match v with
        | .dict d =>
            if (d.lookup "input").isNone then
              .error "Missing required section: input"
            else if (d.lookup "output").isNone then
              .error "Missing required section: output"
            else
              validate_input_section d >>= fun _ =>
              validate_output_section d >>= fun _ =>
              (if (d.lookup "options").isSome then validate_options_section d
               else .ok ()) >>= fun _ =>
              (if (d.lookup "documents").isSome then validate_documents_section d
               else .ok ()) >>= fun _ =>
              (if (d.lookup "combine").isSome then validate_combine_section d
               else .ok ())
        | _ => .error "TypeError: job data is not a mapping"

theorem except_bind_ok {α β : Type} {a : Except String α}
    {f : α → Except String β} {b : β} (h : (a >>= f) = .ok b) :
    ∃ x, a = .ok x ∧ f x = .ok b := by
  cases a with
  | error e => simp [Bind.bind, Except.bind] at h
  | ok x => exact ⟨x, rfl, by simpa [Bind.bind, Except.bind] using h⟩

/-- C10: a falsy job description (Python `None` from an empty YAML file,
or an empty mapping) fails with the dedicated empty-data error, before
any section check. -/
theorem validate_empty_job_data (job_data : Option JVal)
    (h : optTruthy job_data = false) :
    validate_job_data job_data = .error "Job data is empty" := by
  match job_data with
  | none => rfl
  | some v =>
      simp only [optTruthy] at h
      simp [validate_job_data, h]

/-- Witness for C10: the empty mapping is rejected as empty job data. -/
theorem validate_empty_job_data_witness :
    validate_job_data (some (.dict [])) = .error "Job data is empty" :=
  validate_empty_job_data (some (.dict [])) rfl

/-- C6: when the `input` section is missing, validation reports the
missing-input-section error even when the `output` format is invalid —
section-presence checks run before any field check. -/
theorem validate_missing_input_first (d output_data : List (String × JVal))
    (fmt : String)
    (htruthy : JVal.truthy (.dict d) = true)
    (hinput : d.lookup "input" = none)
    (_houtput : d.lookup "output" = some (.dict output_data))
    (_hfmt : output_data.lookup "format" = some (.str fmt))
    (_hbad : valid_formats.contains (strLower fmt) = false) :
    validate_job_data (some (.dict d)) = .error "Missing required section: input" := by
  simp [validate_job_data, htruthy, hinput]

/-- Witness for C6: a job with only an `output` section whose format
`docx` is invalid is reported as missing `input`. -/
theorem validate_missing_input_first_witness :
    validate_job_data (some (.dict
        [("output", .dict [("format", .str "docx"), ("directory", .str "out")])])) =
      .error "Missing required section: input" :=
  validate_missing_input_first
    [("output", .dict [("format", .str "docx"), ("directory", .str "out")])]
    [("format", .str "docx"), ("directory", .str "out")] "docx"
    rfl rfl rfl rfl (by decide)

/-- C7: for a job description containing a `combine` section, the combine
validator succeeds exactly when `combine.enabled` is present and boolean
and `combine.output_file` is present whenever `enabled` is true; and
whole-job validation succeeding implies the combine validator succeeded. -/
theorem validate_combine_spec (d : List (String × JVal)) (cv : JVal)
    (hc : d.lookup "combine" = some cv) :
    (validate_combine_section d = .ok () ↔
      ∃ cd : List (String × JVal), cv = .dict cd ∧
        ∃ b : Bool, cd.lookup "enabled" = some (.bool b) ∧
          (b = true → (cd.lookup "output_file").isSome = true)) ∧
    (validate_job_data (some (.dict d)) = .ok () →
      validate_combine_section d = .ok ()) := by
  constructor
  · rw [validate_combine_section, hc]
    cases cv with
    | str s => simp
    | bool b => simp
    | list l => simp
    | dict cd =>
        cases he : cd.lookup "enabled" with
        | none => simp [he]
        | some ev =>
            cases ev with
            | str s => simp [he]
            | list l => simp [he]
            | dict dd => simp [he]
            | bool b =>
                cases b with
                | false =>
                    constructor
                    · intro _
                      exact ⟨cd, rfl, false, he, fun hb => by cases hb⟩
                    · intro _
                      simp [he]
                | true =>
                    cases hx : cd.lookup "output_file" with
                    | some v =>
                        constructor
                        · intro _
                          exact ⟨cd, rfl, true, he, fun _ => by simp [hx]⟩
                        · intro _
                          simp [he, hx]
                    | none =>
                        constructor
                        · intro h
                          simp [he, hx] at h
                        · rintro ⟨cd', heq, b, hb, himp⟩
                          injection heq with hcd
                          subst hcd
                          rw [he] at hb
                          injection hb with hb2
                          injection hb2 with hb3
                          rw [← hb3] at himp
                          have hsome := himp rfl
                          rw [hx] at hsome
                          simp at hsome
  · intro h
    simp only [validate_job_data] at h
    by_cases ht : (!JVal.truthy (.dict d)) = true
    · rw [if_pos ht] at h; exact absurd h (by simp)
    · rw [if_neg ht] at h
      by_cases hi : (d.lookup "input").isNone = true
      · rw [if_pos hi] at h; exact absurd h (by simp)
      · rw [if_neg hi] at h
        by_cases hou : (d.lookup "output").isNone = true
        · rw [if_pos hou] at h; exact absurd h (by simp)
        · rw [if_neg hou] at h
          obtain ⟨_, _, h⟩ := except_bind_ok h
          obtain ⟨_, _, h⟩ := except_bind_ok h
          obtain ⟨_, _, h⟩ := except_bind_ok h
          obtain ⟨_, _, h⟩ := except_bind_ok h
          have hs : (d.lookup "combine").isSome = true := by
            rw [hc]; rfl
          rw [if_pos hs] at h
          exact h

/-- Witness for C7: a combine section with boolean `enabled: false` and
no `output_file` validates. -/
theorem validate_combine_spec_witness :
    validate_combine_section [("combine", .dict [("enabled", .bool false)])] = .ok () :=
  (validate_combine_spec [("combine", .dict [("enabled", .bool false)])]
      (.dict [("enabled", .bool false)]) rfl).1.mpr
    ⟨[("enabled", .bool false)], rfl, false, rfl, by simp⟩

/-! ## Input gatherer (`ConversionManager._gather_input_files`) -/

/-- The `ext_map` of `_gather_input_files`. -/
def ext_map : List (String × String) :=
  [("markdown", ".md"), ("html", ".html"), ("pdf", ".pdf"), ("odt", ".odt")]

/-- The `md` → `markdown` normalization the converter applies after
lowercasing a format. -/
def normalize_format (f : String) : String :=
  if f == "md" then "markdown" else f

/-- The documents loop of `_gather_input_files`: resolve each
`documents[i].file` against the input directory; existing files are kept
in declared order, missing ones produce a warning and are skipped. -/
def gather_documents (fs : FileSystem) (input_dir : String) :
    List JVal → Except String (List String × List String)
  | [] => .ok ([], [])
  | doc :: rest =>
      match doc with
      | .dict dd =>
          match dd.lookup "file" with
          | some (.str f) =>
              (gather_documents fs input_dir rest).map fun fw =>
                let fp := joinPath input_dir f
                if fs.fileExists fp then (fp :: fw.1, fw.2)
                else (fw.1, ("Warning: Document file not found: " ++ fp) :: fw.2)
          | some _ => .error "TypeError: documents file entry is not a path"
          | none => .error "KeyError: file"
      | _ => .error "TypeError: document entry is not a mapping"

/-- The `input.files` loop of `_gather_input_files`: keep each existing
listed path in order, warn on and drop missing ones. -/
def gather_listed_files (fs : FileSystem) :
    List JVal → Except String (List String × List String)
  | [] => .ok ([], [])
  | .str p :: rest =>
      (gather_listed_files fs rest).map fun fw =>
        if fs.fileExists p then (p :: fw.1, fw.2)
        else (fw.1, ("Warning: Input file not found: " ++ p) :: fw.2)
  | _ :: _ => .error "TypeError: input files entry is not a path"

/-- `ConversionManager._gather_input_files` on a freshly constructed
manager: the gathered FileSet together with the warnings printed. -/
def gather_input_files (fs : FileSystem) (d : List (String × JVal)) :
    Except String (List String × List String) :=
  match d.lookup "input" with
  | some (.dict input_data) =>
      match input_data.lookup "format" with
      | some (.str fmtRaw) =>
          let input_format := normalize_format (strLower fmtRaw)
          let file_ext := (ext_map.lookup input_format).getD ".md"
          match input_data.lookup "directory" with
          | some (.str input_dir) =>
              if !(fs.dirExists input_dir) then
                .error ("Input directory does not exist: " ++ input_dir)
              else
                let files := glob fs input_dir ("*" ++ file_ext)
                match d.lookup "documents" with
                | some (.list docs) => gather_documents fs input_dir docs
                | some _ => .error "TypeError: documents section is not iterable"
                | none => .ok (files, [])
          | some _ => .error "TypeError: input.directory is not a path"
          | none =>
              match input_data.lookup "files" with
              | some (.list ps) => gather_listed_files fs ps
              | some _ => .error "TypeError: input.files is not iterable"
              | none => .ok ([], [])
      | some _ => .error "AttributeError: input.format has no attribute lower"
      | none => .error "KeyError: format"
  | some _ => .error "TypeError: input section is not a mapping"
  | none => .error "KeyError: input"

/-- Counterexample to C4 as stated: a directory whose listing order is
`[b.md, a.md]` gathers in that listing order, not alphabetically sorted —
`glob.glob` performs no sorting. -/
theorem gather_directory_not_sorted :
    gather_input_files ⟨[("d", ["b.md", "a.md"])]⟩
        [("input", .dict [("format", .str "markdown"), ("directory", .str "d")])] =
      .ok (["d/b.md", "d/a.md"], []) ∧
    ["d/b.md", "d/a.md"] ≠ ["d/a.md", "d/b.md"] :=
  ⟨rfl, by decide⟩

/-- C4 (amended): with an existing input directory and no documents
override, the gathered FileSet is the directory's single-level listing
filtered to the input format's extension, in the directory's listing
order (no sorting is applied). -/
theorem gather_directory_listing_order (fs : FileSystem)
    (d input_data : List (String × JVal)) (dir fmtRaw : String)
    (es : List String)
    (hin : d.lookup "input" = some (.dict input_data))
    (hfmt : input_data.lookup "format" = some (.str fmtRaw))
    (hdir : input_data.lookup "directory" = some (.str dir))
    (hdocs : d.lookup "documents" = none)
    (hes : fs.dirEntries dir = some es) :
    gather_input_files fs d =
      .ok ((es.filter (globMatch ("*" ++
              ((ext_map.lookup (normalize_format (strLower fmtRaw))).getD ".md")))).map
            (joinPath dir),
           []) := by
  simp [gather_input_files, hin, hfmt, hdir, hdocs, glob, hes,
    FileSystem.dirExists]

/-- Witness for C4 (amended): a markdown directory with listing
`[b.md, x.txt, a.md]` gathers `[d/b.md, d/a.md]`. -/
theorem gather_directory_listing_order_witness :
    gather_input_files ⟨[("d", ["b.md", "x.txt", "a.md"])]⟩
        [("input", .dict [("format", .str "md"), ("directory", .str "d")])] =
      .ok (["d/b.md", "d/a.md"], []) := by
  have h := gather_directory_listing_order ⟨[("d", ["b.md", "x.txt", "a.md"])]⟩
    [("input", .dict [("format", .str "md"), ("directory", .str "d")])]
    [("format", .str "md"), ("directory", .str "d")]
    "d" "md" ["b.md", "x.txt", "a.md"] rfl rfl rfl rfl rfl
  rw [h]
  rfl

/-- The documents loop on entries shaped `{file: nameᵢ, ...}` produces
exactly the existing resolved names in declared order, and one warning
per missing name. -/
theorem gather_documents_eq (fs : FileSystem) (dir : String)
    (docs : List JVal) (names : List String)
    (hshape : List.Forall₂
      (fun doc n => ∃ dd, doc = JVal.dict dd ∧ dd.lookup "file" = some (.str n))
      docs names) :
    gather_documents fs dir docs =
      .ok (names.filterMap (fun n =>
             if fs.fileExists (joinPath dir n) then some (joinPath dir n) else none),
           names.filterMap (fun n =>
             if fs.fileExists (joinPath dir n) then none
             else some ("Warning: Document file not found: " ++ joinPath dir n))) := by
  induction hshape with
  | nil => rfl
  | @cons doc n docs2 names2 hd htl ih =>
      obtain ⟨dd, rfl, hfile⟩ := hd
      simp only [gather_documents, hfile, ih, Except.map, List.filterMap_cons]
      by_cases hex : fs.fileExists (joinPath dir n) = true
      · simp [hex]
      · rw [Bool.not_eq_true] at hex
        simp [hex]

/-- C5: with an input directory and a documents list, the gathered
FileSet is exactly the declared entries resolved against the directory,
in declared order; undeclared directory files are excluded, and each
declared-but-missing file is skipped with a warning, fatally failing
nothing and adding nothing. -/
theorem gather_documents_override (fs : FileSystem)
    (d input_data : List (String × JVal)) (dir fmtRaw : String)
    (es : List String) (docs : List JVal) (names : List String)
    (hin : d.lookup "input" = some (.dict input_data))
    (hfmt : input_data.lookup "format" = some (.str fmtRaw))
    (hdir : input_data.lookup "directory" = some (.str dir))
    (hes : fs.dirEntries dir = some es)
    (hdocs : d.lookup "documents" = some (.list docs))
    (hshape : List.Forall₂
      (fun doc n => ∃ dd, doc = JVal.dict dd ∧ dd.lookup "file" = some (.str n))
      docs names) :
    gather_input_files fs d =
      .ok (names.filterMap (fun n =>
             if fs.fileExists (joinPath dir n) then some (joinPath dir n) else none),
           names.filterMap (fun n =>
             if fs.fileExists (joinPath dir n) then none
             else some ("Warning: Document file not found: " ++ joinPath dir n))) := by
  simp [gather_input_files, hin, hfmt, hdir, hdocs, FileSystem.dirExists, hes,
    gather_documents_eq fs dir docs names hshape]

/-- Witness for C5: directory listing `[a.md, b.md, c.md]`, documents
`[c.md, a.md, missing.md]` gathers `[d/c.md, d/a.md]` with one warning. -/
theorem gather_documents_override_witness :
    gather_input_files ⟨[("d", ["a.md", "b.md", "c.md"])]⟩
        [("input", .dict [("format", .str "markdown"), ("directory", .str "d")]),
         ("documents", .list
           [.dict [("file", .str "c.md")],
            .dict [("file", .str "a.md"), ("title", .str "Alpha")],
            .dict [("file", .str "missing.md")]])] =
      .ok (["d/c.md", "d/a.md"],
           ["Warning: Document file not found: d/missing.md"]) := by
  have h := gather_documents_override ⟨[("d", ["a.md", "b.md", "c.md"])]⟩
    [("input", .dict [("format", .str "markdown"), ("directory", .str "d")]),
     ("documents", .list
       [.dict [("file", .str "c.md")],
        .dict [("file", .str "a.md"), ("title", .str "Alpha")],
        .dict [("file", .str "missing.md")]])]
    [("format", .str "markdown"), ("directory", .str "d")]
    "d" "markdown" ["a.md", "b.md", "c.md"]
    [.dict [("file", .str "c.md")],
     .dict [("file", .str "a.md"), ("title", .str "Alpha")],
     .dict [("file", .str "missing.md")]]
    ["c.md", "a.md", "missing.md"]
    rfl rfl rfl rfl rfl
    (by
      refine List.Forall₂.cons ⟨_, rfl, rfl⟩ ?_
      refine List.Forall₂.cons ⟨_, rfl, rfl⟩ ?_
      exact List.Forall₂.cons ⟨_, rfl, rfl⟩ List.Forall₂.nil)
  rw [h]
  rfl

/-- The `input.files` loop on string entries keeps exactly the existing
paths in listed order and warns once per missing path. -/
theorem gather_listed_files_eq (fs : FileSystem) (ps : List String) :
    gather_listed_files fs (ps.map JVal.str) =
      .ok (ps.filter (fun p => fs.fileExists p),
           ps.filterMap (fun p =>
             if fs.fileExists p then none
             else some ("Warning: Input file not found: " ++ p))) := by
  induction ps with
  | nil => rfl
  | cons p rest ih =>
      simp only [List.map_cons, gather_listed_files, ih, Except.map,
        List.filter_cons, List.filterMap_cons]
      by_cases hex : fs.fileExists p = true
      · simp [hex]
      · simp [Bool.not_eq_true] at hex
        simp [hex]

/-- C9: when the input section specifies `files` (and no `directory`),
the gathered FileSet is exactly the listed paths that exist, in listed
order, with a warning per missing entry — any `documents` section is
ignored entirely (the job dict `d` is arbitrary, so it may contain any
`documents` value). -/
theorem gather_files_ignores_documents (fs : FileSystem)
    (d input_data : List (String × JVal)) (fmtRaw : String) (ps : List String)
    (hin : d.lookup "input" = some (.dict input_data))
    (hfmt : input_data.lookup "format" = some (.str fmtRaw))
    (hnodir : input_data.lookup "directory" = none)
    (hfiles : input_data.lookup "files" = some (.list (ps.map JVal.str))) :
    gather_input_files fs d =
      .ok (ps.filter (fun p => fs.fileExists p),
           ps.filterMap (fun p =>
             if fs.fileExists p then none
             else some ("Warning: Input file not found: " ++ p))) := by
  simp [gather_input_files, hin, hfmt, hnodir, hfiles, gather_listed_files_eq]

/-- Witness for C9: listed files `[d/a.md, missing]` with a `documents`
section present gathers `[d/a.md]` plus one warning, ignoring the
documents list. -/
theorem gather_files_ignores_documents_witness :
    gather_input_files ⟨[("d", ["a.md", "b.md"])]⟩
        [("input", .dict [("format", .str "markdown"),
           ("files", .list [.str "d/a.md", .str "missing"])]),
         ("documents", .list [.dict [("file", .str "b.md")]])] =
      .ok (["d/a.md"], ["Warning: Input file not found: missing"]) := by
  have h := gather_files_ignores_documents ⟨[("d", ["a.md", "b.md"])]⟩
    [("input", .dict [("format", .str "markdown"),
       ("files", .list [.str "d/a.md", .str "missing"])]),
     ("documents", .list [.dict [("file", .str "b.md")]])]
    [("format", .str "markdown"),
     ("files", .list [.str "d/a.md", .str "missing"])]
    "markdown" ["d/a.md", "missing"] rfl rfl rfl rfl
  rw [h]
  rfl

/-! ## Conversion orchestrator (`ConversionManager.run_conversion`) -/

/-- `self.job_data[sec]['format'].lower()` as `run_conversion` reads it. -/
def get_format (d : List (String × JVal)) (sec : String) : Except String String :=
  match d.lookup sec with
  | some (.dict sd) =>
      match sd.lookup "format" with
      | some (.str f) => .ok (strLower f)
      | some _ => .error ("AttributeError: " ++ sec ++ ".format has no attribute lower")
      | none => .error "KeyError: format"
  | some _ => .error ("TypeError: " ++ sec ++ " section is not a mapping")
  | none => .error ("KeyError: " ++ sec)

/-- `ConversionManager._prepare_output_directories`: reads the `output`
section; `os.makedirs(..., exist_ok=True)` is a side effect that cannot
fail in this model. -/
def prepare_output_directories (d : List (String × JVal)) : Except String Unit :=
  match d.lookup "output" with
  | some (.dict _) => .ok ()
  | some _ => .error "TypeError: output section is not a mapping"
  | none => .error "KeyError: output"

/-- `ConversionManager.run_conversion` on a freshly constructed manager
(`input_files` empty, `job_data` set to the given value), instrumented:
the result is paired with whether `_determine_conversion_path` was
invoked during the run.  `_copy_files` and `_convert_files` are the
source's placeholder implementations, both setting
`output_files = input_files`. -/
def run_conversion (fs : FileSystem) (job_data : Option JVal) :
    Except String (List String) × Bool :=
  match job_data with
  | none =>
      (.error "Job data not set. Load a job file or set job data directly.", false)
  | some v =>
      if !v.truthy then
        (.error "Job data not set. Load a job file or set job data directly.", false)
      else
        match v with
        | .dict d =>
            match gather_input_files fs d with
            | .error e => (.error e, false)
            | .ok (input_files, _warnings) =>
                match prepare_output_directories d with
                | .error e => (.error e, false)
                | .ok _ =>
                    match get_format d "input" with
                    | .error e => (.error e, false)
                    | .ok fi =>
                        match get_format d "output" with
                        | .error e => (.error e, false)
                        | .ok fo =>
                            let input_format := normalize_format fi
                            let output_format := normalize_format fo
                            if input_format == output_format then
                              (.ok input_files, false)
                            else
                              match determine_conversion_path input_format output_format with
                              | .error e => (.error e, true)
                              | .ok _path =>
                                  match d.lookup "combine" with
                                  | none => (.ok input_files, true)
                                  | some (.dict cd) =>
                                      let enabled :=
                                        match cd.lookup "enabled" with
                                        | some ev => ev.truthy
                                        | none => false
                                      if enabled then
                                        match cd.lookup "output_file" with
                                        | some _ => (.ok input_files, true)
                                        | none => (.error "KeyError: output_file", true)
                                      else (.ok input_files, true)
                                  | some _ =>
                                      (.error "AttributeError: combine has no attribute get", true)
        | _ => (.error "TypeError: job data is not a mapping", false)

theorem validate_job_data_ok_parts (d : List (String × JVal))
    (h : validate_job_data (some (.dict d)) = .ok ()) :
    JVal.truthy (.dict d) = true ∧
    validate_input_section d = .ok () ∧
    validate_output_section d = .ok () := by
  simp only [validate_job_data] at h
  by_cases ht : (!JVal.truthy (.dict d)) = true
  · rw [if_pos ht] at h; exact absurd h (by simp)
  · rw [if_neg ht] at h
    by_cases hi : (d.lookup "input").isNone = true
    · rw [if_pos hi] at h; exact absurd h (by simp)
    · rw [if_neg hi] at h
      by_cases hou : (d.lookup "output").isNone = true
      · rw [if_pos hou] at h; exact absurd h (by simp)
      · rw [if_neg hou] at h
        obtain ⟨x1, h1, h⟩ := except_bind_ok h
        obtain ⟨x2, h2, _⟩ := except_bind_ok h
        refine ⟨by simpa using ht, ?_, ?_⟩
        · cases x1; exact h1
        · cases x2; exact h2

theorem validate_output_section_ok_dict (d : List (String × JVal))
    (h : validate_output_section d = .ok ()) :
    ∃ od, d.lookup "output" = some (.dict od) := by
  rw [validate_output_section] at h
  cases ho : d.lookup "output" with
  | none => rw [ho] at h; exact absurd h (by simp)
  | some v =>
      cases v with
      | dict od => exact ⟨od, rfl⟩
      | str s => rw [ho] at h; exact absurd h (by simp)
      | bool b => rw [ho] at h; exact absurd h (by simp)
      | list l => rw [ho] at h; exact absurd h (by simp)

/-- C2: for a valid job whose normalized input and output formats agree
(`md` normalized to `markdown`, case-insensitively — `get_format` returns
the lowercased format), `run_conversion` performs the copy pass,
returning exactly the gathered FileSet, and the path resolver is never
invoked. -/
theorem run_conversion_same_format_copies (fs : FileSystem)
    (d : List (String × JVal)) (fi fo : String)
    (files warnings : List String)
    (hvalid : validate_job_data (some (.dict d)) = .ok ())
    (hfi : get_format d "input" = .ok fi)
    (hfo : get_format d "output" = .ok fo)
    (heq : normalize_format fi = normalize_format fo)
    (hgather : gather_input_files fs d = .ok (files, warnings)) :
    run_conversion fs (some (.dict d)) = (.ok files, false) := by
  obtain ⟨ht, _, houtOk⟩ := validate_job_data_ok_parts d hvalid
  obtain ⟨od, hod⟩ := validate_output_section_ok_dict d houtOk
  simp [run_conversion, ht, hgather, prepare_output_directories, hod,
    hfi, hfo, heq]

/-- Witness for C2: a valid `md` → `markdown` job over a one-file
directory copies the gathered FileSet without resolving a path. -/
theorem run_conversion_same_format_copies_witness :
    run_conversion ⟨[("docs", ["a.md"])]⟩
        (some (.dict
          [("input", .dict [("format", .str "md"), ("directory", .str "docs")]),
           ("output", .dict [("format", .str "markdown"),
             ("directory", .str "out")])])) =
      (.ok ["docs/a.md"], false) :=
  run_conversion_same_format_copies ⟨[("docs", ["a.md"])]⟩
    [("input", .dict [("format", .str "md"), ("directory", .str "docs")]),
     ("output", .dict [("format", .str "markdown"), ("directory", .str "out")])]
    "md" "markdown" ["docs/a.md"] [] rfl rfl rfl rfl rfl

/-! ## CLI synthesis (`doctool.create_job_data_from_args`,
`doctool.validate_args`) -/

/-- Truthiness of an optional CLI string argument (`if args.x:` —
argparse's default is `None`, and an explicit empty string is falsy). -/
def argTruthy : Option String → Bool
  | none => false
  | some s => !s.isEmpty

/-- Truthiness of the `--files` list argument. -/
def argListTruthy : Option (List String) → Bool
  | none => false
  | some l => !l.isEmpty

/-- The argparse namespace produced by `doctool.parse_args`. -/
structure Args where
  job_file : Option String := none
  input_dir : Option String := none
  input_file : Option String := none
  from_format : Option String := none
  output_dir : Option String := none
  output_file : Option String := none
  to_format : Option String := none
  combine : Bool := false
  files : Option (List String) := none
  css : Option String := none
  toc : Bool := false
  embed_images : Bool := false

/-- The `input` dict built by `create_job_data_from_args`. -/
def cli_input_sec (a : Args) : List (String × JVal) :=
  (if argTruthy a.input_dir then [("directory", JVal.str (a.input_dir.getD ""))]
   else if argTruthy a.input_file then
     [("files", JVal.list [JVal.str (a.input_file.getD "")])]
   else []) ++
  (if argTruthy a.from_format then [("format", JVal.str (a.from_format.getD ""))]
   else [])

/-- The `output` dict built by `create_job_data_from_args`. -/
def cli_output_sec (a : Args) : List (String × JVal) :=
  (if argTruthy a.output_dir then [("directory", JVal.str (a.output_dir.getD ""))]
   else if argTruthy a.output_file then [("file", JVal.str (a.output_file.getD ""))]
   else []) ++
  (if argTruthy a.to_format then [("format", JVal.str (a.to_format.getD ""))]
   else [])

/-- The `options` dict built by `create_job_data_from_args`. -/
def cli_options_sec (a : Args) : List (String × JVal) :=
  (if argTruthy a.css then [("css", JVal.str (a.css.getD ""))] else []) ++
  (if a.toc then [("toc", JVal.bool true)] else []) ++
  (if a.embed_images then
     [("images", JVal.dict
       [("embed", JVal.bool true),
        ("formats", JVal.list
          [.str "jpg", .str "jpeg", .str "png", .str "webp", .str "svg"])])]
   else [])

/-- The `combine` dict built by `create_job_data_from_args` when
`--combine` is set: `enabled: true` always, `output_file` only when
`--output-file` was given. -/
def cli_combine_sec (a : Args) : List (String × JVal) :=
  [("enabled", JVal.bool true)] ++
  (if argTruthy a.output_file then
    [("output_file", JVal.str (a.output_file.getD ""))]
   else [])

/-- The `documents` list built by `create_job_data_from_args` from
`--files`. -/
def cli_documents (a : Args) : List JVal :=
  (a.files.getD []).map (fun f => JVal.dict [("file", JVal.str f)])

/-- `doctool.create_job_data_from_args`: the dict keys appear in the
source's insertion order. -/
def create_job_data_from_args (a : Args) : JVal :=
  JVal.dict
    ([("input", .dict (cli_input_sec a)),
      ("output", .dict (cli_output_sec a)),
      ("options", .dict (cli_options_sec a))] ++
     (if a.combine then
        [("combine", .dict (cli_combine_sec a))] ++
        (if argListTruthy a.files then
          [("documents", .list (cli_documents a))]
         else [])
      else []))

/-- `doctool.validate_args`. -/
def validate_args (a : Args) : Bool :=
  if argTruthy a.job_file then true
  else if !(argTruthy a.input_dir || argTruthy a.input_file) then false
  else if !(argTruthy a.output_dir || argTruthy a.output_file) then false
  else if !(argTruthy a.from_format && argTruthy a.to_format) then false
  else true

/-- Counterexample to C3 as stated: `--input-dir docs --output-dir out
--from md --to pdf --combine` passes `validate_args`, but its
synthesized combine section has `enabled: true` with no `output_file`,
so the job-file validator rejects the synthesized job data. -/
theorem cli_combine_without_output_file_rejected :
    validate_args
        { input_dir := some "docs", output_dir := some "out",
          from_format := some "md", to_format := some "pdf",
          combine := true } = true ∧
    validate_job_data (some (create_job_data_from_args
        { input_dir := some "docs", output_dir := some "out",
          from_format := some "md", to_format := some "pdf",
          combine := true })) =
      .error "Missing required field: combine.output_file when combine.enabled is true" :=
  ⟨rfl, rfl⟩

/-- The format strings argparse admits for `--from` / `--to`
(`choices=['md', 'markdown', 'html', 'pdf', 'odt']`). -/
def format_choice : Option String → Bool
  | none => true
  | some s => ["md", "markdown", "html", "pdf", "odt"].contains s

theorem choice_contains (s : String)
    (h : ["md", "markdown", "html", "pdf", "odt"].contains s = true) :
    strLower s ∈ valid_formats := by
  have hmem : s ∈ ["md", "markdown", "html", "pdf", "odt"] := by simpa using h
  fin_cases hmem <;> decide

theorem except_ok_bind {α β : Type} (x : α) (f : α → Except String β) :
    (Except.ok x >>= f : Except String β) = f x := rfl

theorem validate_args_parts (a : Args)
    (hjf : argTruthy a.job_file = false)
    (hv : validate_args a = true) :
    (argTruthy a.input_dir || argTruthy a.input_file) = true ∧
    (argTruthy a.output_dir || argTruthy a.output_file) = true ∧
    (argTruthy a.from_format && argTruthy a.to_format) = true := by
  simp only [validate_args, hjf, Bool.false_eq_true, if_false] at hv
  rcases Bool.eq_false_or_eq_true
      (argTruthy a.input_dir || argTruthy a.input_file) with h1 | h1 <;>
    rcases Bool.eq_false_or_eq_true
        (argTruthy a.output_dir || argTruthy a.output_file) with h2 | h2 <;>
      rcases Bool.eq_false_or_eq_true
          (argTruthy a.from_format && argTruthy a.to_format) with h3 | h3 <;>
        simp [h1, h2, h3] at hv ⊢

theorem cli_input_fields_ok (a : Args)
    (hio : (argTruthy a.input_dir || argTruthy a.input_file) = true)
    (hfrom : argTruthy a.from_format = true)
    (hchoice : format_choice a.from_format = true) :
    validate_input_fields (cli_input_sec a) = .ok () := by
  cases hf : a.from_format with
  | none => rw [hf] at hfrom; simp [argTruthy] at hfrom
  | some s =>
      rw [hf] at hfrom hchoice
      have hc := choice_contains s (by simpa [format_choice] using hchoice)
      rcases Bool.eq_false_or_eq_true (argTruthy a.input_dir) with hid | hid
      · simp [cli_input_sec, validate_input_fields, hid, hf, hfrom,
          List.lookup, hc]
      · have hif : argTruthy a.input_file = true := by
          rw [hid] at hio; simpa using hio
        simp [cli_input_sec, validate_input_fields, hid, hif, hf, hfrom,
          List.lookup, hc]

theorem cli_output_fields_ok (a : Args)
    (hoo : (argTruthy a.output_dir || argTruthy a.output_file) = true)
    (hto : argTruthy a.to_format = true)
    (hchoice : format_choice a.to_format = true) :
    validate_output_fields (cli_output_sec a) = .ok () := by
  cases hf : a.to_format with
  | none => rw [hf] at hto; simp [argTruthy] at hto
  | some s =>
      rw [hf] at hto hchoice
      have hc := choice_contains s (by simpa [format_choice] using hchoice)
      rcases Bool.eq_false_or_eq_true (argTruthy a.output_dir) with hod | hod
      · simp [cli_output_sec, validate_output_fields, hod, hf, hto,
          List.lookup, hc]
      · have hof : argTruthy a.output_file = true := by
          rw [hod] at hoo; simpa using hoo
        simp [cli_output_sec, validate_output_fields, hod, hof, hf, hto,
          List.lookup, hc]

theorem images_section_value_ok :
    validate_images_section (JVal.dict
      [("embed", JVal.bool true),
       ("formats", JVal.list
         [.str "jpg", .str "jpeg", .str "png", .str "webp", .str "svg"])]) =
      .ok () := rfl

theorem cli_options_fields_ok (a : Args) :
    validate_options_fields (cli_options_sec a) = .ok () := by
  rcases Bool.eq_false_or_eq_true (argTruthy a.css) with hc | hc <;>
    rcases Bool.eq_false_or_eq_true a.toc with ht | ht <;>
      rcases Bool.eq_false_or_eq_true a.embed_images with he | he <;>
        simp [cli_options_sec, validate_options_fields, hc, ht, he,
          List.lookup, images_section_value_ok]

theorem validate_documents_list_ok (i : Nat) (names : List String) :
    validate_documents_list i
      (names.map (fun f => JVal.dict [("file", JVal.str f)])) = .ok () := by
  induction names generalizing i with
  | nil => rfl
  | cons n rest ih => simp [validate_documents_list, List.lookup, ih]

/-- C3 (amended): a CLI invocation that reaches the synthesis path
(no `--job-file`), passes `validate_args`, uses argparse's `--from`/`--to`
choices, and — whenever `--combine` is set — also supplies
`--output-file`, synthesizes job data that the job-file validator accepts
unmodified.  (Without `--output-file`, `--combine` synthesizes a combine
section the validator rejects; see the counterexample.) -/
theorem cli_job_data_validates (a : Args)
    (hjf : argTruthy a.job_file = false)
    (hv : validate_args a = true)
    (hfrom : format_choice a.from_format = true)
    (hto : format_choice a.to_format = true)
    (hcomb : a.combine = true → argTruthy a.output_file = true) :
    validate_job_data (some (create_job_data_from_args a)) = .ok () := by
  obtain ⟨hio, hoo, hff⟩ := validate_args_parts a hjf hv
  have hsplit : argTruthy a.from_format = true ∧ argTruthy a.to_format = true := by
    simpa using hff
  have hin := cli_input_fields_ok a hio hsplit.1 hfrom
  have hout := cli_output_fields_ok a hoo hsplit.2 hto
  have hopt := cli_options_fields_ok a
  rcases Bool.eq_false_or_eq_true a.combine with hcb | hcb
  · have hof := hcomb hcb
    rcases Bool.eq_false_or_eq_true (argListTruthy a.files) with hfl | hfl
    · simp [validate_job_data, create_job_data_from_args, hcb, hfl, hof,
        JVal.truthy, validate_input_section, validate_output_section,
        validate_options_section, validate_documents_section,
        validate_combine_section, cli_combine_sec, cli_documents,
        List.lookup, except_ok_bind, hin, hout, hopt,
        validate_documents_list_ok]
    · simp [validate_job_data, create_job_data_from_args, hcb, hfl, hof,
        JVal.truthy, validate_input_section, validate_output_section,
        validate_options_section, validate_documents_section,
        validate_combine_section, cli_combine_sec,
        List.lookup, except_ok_bind, hin, hout, hopt]
  · simp [validate_job_data, create_job_data_from_args, hcb, JVal.truthy,
      validate_input_section, validate_output_section, validate_options_section,
      validate_documents_section, validate_combine_section,
      List.lookup, except_ok_bind, hin, hout, hopt]

/-- Witness for C3 (amended): a full flag set with `--combine` and
`--output-file` synthesizes job data the validator accepts. -/
theorem cli_job_data_validates_witness :
    validate_job_data (some (create_job_data_from_args
        { input_dir := some "docs", output_file := some "out.pdf",
          from_format := some "md", to_format := some "pdf",
          combine := true, files := some ["a.md", "b.md"],
          css := some "style.css", toc := true, embed_images := true })) =
      .ok () :=
  cli_job_data_validates
    { input_dir := some "docs", output_file := some "out.pdf",
      from_format := some "md", to_format := some "pdf",
      combine := true, files := some ["a.md", "b.md"],
      css := some "style.css", toc := true, embed_images := true }
    rfl rfl rfl rfl (fun _ => rfl)

/-! ## PDF combiner (`PdfCombiner.combine_directory`) -/

/-- Lexicographic comparison of character lists by code point — the
order Python's `list.sort()` uses on the (ASCII) path strings here.
Defined over char lists so it reduces in the kernel. -/
def charListLe : List Char → List Char → Bool
  | [], _ => true
  | _ :: _, [] => false
  | a :: as, b :: bs =>
      if a < b then true
      else if b < a then false
      else charListLe as bs

/-- Python string `<=` for sorting. -/
def pyStrLe (a b : String) : Bool := charListLe a.data b.data

theorem charListLe_trans : ∀ a b c : List Char,
    charListLe a b = true → charListLe b c = true → charListLe a c = true := by
  intro a
  induction a with
  | nil => intro b c _ _; rfl
  | cons x xs ih =>
      intro b c hab hbc
      cases b with
      | nil => simp [charListLe] at hab
      | cons y ys =>
          cases c with
          | nil => simp [charListLe] at hbc
          | cons z zs =>
              simp only [charListLe] at hab hbc ⊢
              by_cases hxy : x < y
              · by_cases hyz : y < z
                · simp [lt_trans hxy hyz]
                · by_cases hzy : z < y
                  · rw [if_neg hyz, if_pos hzy] at hbc
                    exact absurd hbc (by simp)
                  · have hyz2 : y = z := le_antisymm (not_lt.mp hzy) (not_lt.mp hyz)
                    subst hyz2
                    simp [hxy]
              · by_cases hyx : y < x
                · rw [if_neg hxy, if_pos hyx] at hab
                  exact absurd hab (by simp)
                · have hxy2 : x = y := le_antisymm (not_lt.mp hyx) (not_lt.mp hxy)
                  subst hxy2
                  rw [if_neg hxy, if_neg hyx] at hab
                  by_cases hyz : x < z
                  · simp [hyz]
                  · by_cases hzy : z < x
                    · rw [if_neg hyz, if_pos hzy] at hbc
                      exact absurd hbc (by simp)
                    · rw [if_neg hyz, if_neg hzy] at hbc ⊢
                      exact ih ys zs hab hbc

theorem charListLe_total : ∀ a b : List Char,
    (charListLe a b || charListLe b a) = true := by
  intro a
  induction a with
  | nil => intro b; simp [charListLe]
  | cons x xs ih =>
      intro b
      cases b with
      | nil => simp [charListLe]
      | cons y ys =>
          simp only [charListLe]
          by_cases hxy : x < y
          · simp [hxy]
          · by_cases hyx : y < x
            · simp [hxy, hyx]
            · simp [hxy, hyx, ih ys]

/-- `PdfCombiner.combine_directory`, modelled as the ordered list of PDF
paths it hands to `combine_files` (the external PyPDF2 merger adapter).
A falsy `file_order` (`None` or `[]`) sorts the glob matches in place;
otherwise the existing ordered files come first and each remaining glob
file is appended unless already present.  The warning printed for a
missing ordered file is a `print` only. -/
def combine_directory (fs : FileSystem) (input_dir file_pattern : String)
    (file_order : Option (List String)) : Except String (List String) :=
  if !(fs.dirExists input_dir) then
    .error ("Input directory not found: " ++ input_dir)
  else
    let pdf_files := glob fs input_dir file_pattern
    match file_order with
    | none => .ok (pdf_files.mergeSort pyStrLe)
    | some [] => .ok (pdf_files.mergeSort pyStrLe)
    | some fo =>
        let ordered_files := fo.filterMap (fun n =>
          if fs.fileExists (joinPath input_dir n) then some (joinPath input_dir n)
          else none)
        .ok (pdf_files.foldl
          (fun acc p => if p ∈ acc then acc else acc ++ [p]) ordered_files)

theorem string_append_cancel_left :
    ∀ s t u : String, s ++ t = s ++ u → t = u := by
  intro ⟨sd⟩ ⟨td⟩ ⟨ud⟩ h
  have hd : sd ++ td = sd ++ ud := congrArg String.data h
  exact congrArg String.mk (List.append_cancel_left hd)

theorem joinPath_injective (d : String) : Function.Injective (joinPath d) := by
  intro n m h
  exact string_append_cancel_left (d ++ "/") n m h

theorem lookup_mem_pairs {β : Type} (l : List (String × β)) (k : String) (v : β)
    (h : l.lookup k = some v) : (k, v) ∈ l := by
  induction l with
  | nil => simp [List.lookup] at h
  | cons p t ih =>
      cases p with
      | mk k2 v2 =>
          simp only [List.lookup] at h
          cases hk : (k == k2) with
          | true =>
              rw [hk] at h
              simp only [Option.some.injEq] at h
              have hke : k = k2 := eq_of_beq hk
              subst hke; subst h
              exact List.mem_cons_self _ _
          | false =>
              rw [hk] at h
              exact List.mem_cons_of_mem _ (ih h)

theorem fileExists_of_entry (fs : FileSystem) (dir : String)
    (es : List String) (n : String)
    (hd : fs.dirEntries dir = some es) (hn : n ∈ es) :
    fs.fileExists (joinPath dir n) = true := by
  have hmem : (dir, es) ∈ fs.dirs := lookup_mem_pairs fs.dirs dir es hd
  rw [FileSystem.fileExists, List.any_eq_true]
  exact ⟨(dir, es), hmem, by rw [List.any_eq_true]; exact ⟨n, hn, by simp⟩⟩

theorem filterMap_if_eq_filter_map {α β : Type} (l : List α) (p : α → Bool)
    (f : α → β) :
    l.filterMap (fun n => if p n then some (f n) else none) =
      (l.filter p).map f := by
  induction l with
  | nil => rfl
  | cons a t ih =>
      by_cases hp : p a = true <;> simp [hp, ih]

theorem foldl_dedupe_append (l : List String) :
    ∀ init : List String, l.Nodup →
    l.foldl (fun acc p => if p ∈ acc then acc else acc ++ [p]) init =
      init ++ l.filter (fun p => decide (p ∉ init)) := by
  induction l with
  | nil => intro init _; simp
  | cons p t ih =>
      intro init hnd
      have hndt : t.Nodup := hnd.of_cons
      have hpt : p ∉ t := (List.nodup_cons.mp hnd).1
      simp only [List.foldl_cons]
      by_cases hp : p ∈ init
      · rw [if_pos hp, ih init hndt]
        have : t.filter (fun q => decide (q ∉ init)) =
            (p :: t).filter (fun q => decide (q ∉ init)) := by
          simp [List.filter_cons, hp]
        rw [this]
      · rw [if_neg hp, ih (init ++ [p]) hndt]
        have hf : t.filter (fun q => decide (q ∉ init ++ [p])) =
            t.filter (fun q => decide (q ∉ init)) := by
          apply List.filter_congr
          intro q hq
          have hqp : q ≠ p := by
            intro he; exact hpt (he ▸ hq)
          simp [List.mem_append, hqp]
        rw [hf]
        simp [List.filter_cons, hp]

theorem mem_ordered_iff (fs : FileSystem) (dir : String) (fo : List String)
    (n : String) (hex : fs.fileExists (joinPath dir n) = true) :
    (joinPath dir n ∈ fo.filterMap (fun m =>
        if fs.fileExists (joinPath dir m) then some (joinPath dir m) else none)) ↔
      n ∈ fo := by
  constructor
  · intro h
    rw [List.mem_filterMap] at h
    obtain ⟨m, hm, hif⟩ := h
    by_cases hx : fs.fileExists (joinPath dir m) = true
    · rw [if_pos hx] at hif
      have := joinPath_injective dir (Option.some.inj hif)
      exact this ▸ hm
    · rw [if_neg hx] at hif
      cases hif
  · intro h
    rw [List.mem_filterMap]
    exact ⟨n, h, by rw [if_pos hex]⟩

theorem glob_rest_filter (fs : FileSystem) (dir pat : String) (fo : List String)
    (es : List String)
    (hsub : ∀ n ∈ es, fs.fileExists (joinPath dir n) = true) :
    ((es.filter (globMatch pat)).map (joinPath dir)).filter (fun p =>
        decide (p ∉ fo.filterMap (fun m =>
          if fs.fileExists (joinPath dir m) then some (joinPath dir m) else none))) =
      (es.filter (fun n => globMatch pat n && !(fo.contains n))).map (joinPath dir) := by
  induction es with
  | nil => rfl
  | cons n t ih =>
      have hsubt : ∀ m ∈ t, fs.fileExists (joinPath dir m) = true :=
        fun m hm => hsub m (List.mem_cons_of_mem _ hm)
      have hexn := hsub n (List.mem_cons_self _ _)
      have ih2 := ih hsubt
      by_cases hgm : globMatch pat n = true
      · rw [List.filter_cons_of_pos hgm, List.map_cons]
        by_cases ho : n ∈ fo
        · have hmem := (mem_ordered_iff fs dir fo n hexn).mpr ho
          have hstepL := @List.filter_cons_of_neg String
            (fun p => decide (p ∉ fo.filterMap (fun m =>
              if fs.fileExists (joinPath dir m) then some (joinPath dir m) else none)))
            (joinPath dir n)
            ((t.filter (globMatch pat)).map (joinPath dir))
            (by simp only [decide_eq_true_eq]; exact fun hc => hc hmem)
          have hstepR := @List.filter_cons_of_neg String
            (fun m => globMatch pat m && !(fo.contains m)) n t
            (by simp [ho])
          rw [hstepL, hstepR, ih2]
        · have hmem : joinPath dir n ∉ fo.filterMap (fun m =>
              if fs.fileExists (joinPath dir m) then some (joinPath dir m)
              else none) :=
            fun hc => ho ((mem_ordered_iff fs dir fo n hexn).mp hc)
          have hstepL := @List.filter_cons_of_pos String
            (fun p => decide (p ∉ fo.filterMap (fun m =>
              if fs.fileExists (joinPath dir m) then some (joinPath dir m) else none)))
            (joinPath dir n)
            ((t.filter (globMatch pat)).map (joinPath dir))
            (decide_eq_true hmem)
          have hstepR := @List.filter_cons_of_pos String
            (fun m => globMatch pat m && !(fo.contains m)) n t
            (by simp [hgm, ho])
          rw [hstepL, hstepR, List.map_cons, ih2]
      · rw [Bool.not_eq_true] at hgm
        have hstepR := @List.filter_cons_of_neg String
          (fun m => globMatch pat m && !(fo.contains m)) n t
          (by simp [hgm])
        rw [List.filter_cons_of_neg (by simp [hgm]), hstepR, ih2]

theorem glob_nodup (fs : FileSystem) (dir pat : String) (es : List String)
    (hd : fs.dirEntries dir = some es) (hnd : es.Nodup) :
    (glob fs dir pat).Nodup := by
  simp only [glob, hd]
  exact (hnd.filter _).map (joinPath_injective dir)

/-- C8: combining a directory with a non-empty `file_order`, the combiner
receives first the ordered files that exist, in list order, then every
matching directory file not named in the list, in listing order; with no
`file_order`, it receives the glob matches sorted by name. -/
theorem combine_directory_order_spec (fs : FileSystem) (dir : String)
    (es fo : List String)
    (hd : fs.dirEntries dir = some es) (hnd : es.Nodup) (hfo : fo ≠ []) :
    (combine_directory fs dir "*.pdf" (some fo) =
      .ok (((fo.filter (fun n => fs.fileExists (joinPath dir n))).map (joinPath dir)) ++
           ((es.filter (fun n => globMatch "*.pdf" n && !(fo.contains n))).map
             (joinPath dir)))) ∧
    (∃ sorted_files, combine_directory fs dir "*.pdf" none = .ok sorted_files ∧
       sorted_files.Perm (glob fs dir "*.pdf") ∧
       List.Pairwise (fun a b => pyStrLe a b = true) sorted_files) := by
  have hde : fs.dirExists dir = true := by
    rw [FileSystem.dirExists, hd]; rfl
  constructor
  · cases fo with
    | nil => exact absurd rfl hfo
    | cons f ft =>
        have hsub : ∀ n ∈ es, fs.fileExists (joinPath dir n) = true :=
          fun n hn => fileExists_of_entry fs dir es n hd hn
        have hg : glob fs dir "*.pdf" =
            (es.filter (globMatch "*.pdf")).map (joinPath dir) := by
          simp only [glob, hd]
        have hfold := foldl_dedupe_append (glob fs dir "*.pdf")
          ((f :: ft).filterMap (fun n =>
            if fs.fileExists (joinPath dir n) then some (joinPath dir n) else none))
          (glob_nodup fs dir "*.pdf" es hd hnd)
        simp only [combine_directory, hde, Bool.not_true, Bool.false_eq_true,
          if_false, hfold]
        rw [hg, glob_rest_filter fs dir "*.pdf" (f :: ft) es hsub,
          filterMap_if_eq_filter_map]
  · refine ⟨(glob fs dir "*.pdf").mergeSort pyStrLe, ?_,
      List.mergeSort_perm _ _, ?_⟩
    · simp only [combine_directory, hde, Bool.not_true, Bool.false_eq_true,
        if_false]
    · exact List.sorted_mergeSort
        (fun a b c hab hbc => charListLe_trans a.data b.data c.data hab hbc)
        (fun a b => charListLe_total a.data b.data)
        (glob fs dir "*.pdf")

/-- Witness for C8: directory files `[1.pdf, 2.pdf, 3.pdf]` with
`file_order = [3.pdf, 1.pdf]` hands the combiner
`[3.pdf, 1.pdf, 2.pdf]`. -/
theorem combine_directory_order_spec_witness :
    combine_directory ⟨[("d", ["1.pdf", "2.pdf", "3.pdf"])]⟩ "d" "*.pdf"
        (some ["3.pdf", "1.pdf"]) =
      .ok ["d/3.pdf", "d/1.pdf", "d/2.pdf"] := by
  have h := (combine_directory_order_spec ⟨[("d", ["1.pdf", "2.pdf", "3.pdf"])]⟩
    "d" ["1.pdf", "2.pdf", "3.pdf"] ["3.pdf", "1.pdf"]
    rfl (by decide) (by decide)).1
  rw [h]
  rfl

end Doctool
